import Mathlib

/-!
Shallow embedding of PiZeroMosquitto src/main.c: the message-to-pin
translation performed by the on_message callback, and the settings
resolution performed by readSettings, together with the startup
sequence of main up to the broker connect attempt.
-/

namespace PiZeroMosquitto

/-- wiringPi logic levels HIGH and LOW, as passed to digitalWrite. -/
inductive Level where
  | HIGH
  | LOW
deriving DecidableEq

/-- Channel-to-pin mapping computed by on_message: the in-place
decrement `*pin -= 1` (main.c line 107). -/
def pinIndex (channel : Nat) : Nat := channel - 1

/-- Embedding of the on_message callback (main.c lines 84-119).
The payload is the list of byte values. The result is the payload
buffer as left by the callback (the code mutates byte 0 in place for
an in-range command) paired with the list of digitalWrite calls
issued, each a (pin, level) pair. The code checks payloadlen == 2,
then that byte 0 is in 1..16; on success it decrements byte 0 in
place and writes HIGH when byte 1 is 0 and LOW otherwise. -/
def on_message (payload : List Nat) : List Nat × List (Nat × Level) :=
  if payload.length = 2 then
    let c := payload.headD 0
    if 0 < c ∧ c ≤ 16 then
      let s := (payload.drop 1).headD 0
      ([pinIndex c, s], [(pinIndex c, if s = 0 then Level.HIGH else Level.LOW)])
    else (payload, [])
  else (payload, [])

/-- Decode outcome of the ChannelCommandCodec: success carries the
validated channel and desired state; the two failure cases follow the
spec's names for the two rejecting checks of on_message. -/
inductive DecodeResult where
  | ok (channel : Nat) (desiredState : Bool)
  | invalidLength
  | channelOutOfRange
deriving DecidableEq

/-- Validation structure of on_message (main.c lines 99-118) seen as a
codec: the same length check and range check, in the same order, with
the state byte taken nonzero as on. -/
def decode (payload : List Nat) : DecodeResult :=
  if payload.length = 2 then
    let c := payload.headD 0
    if 0 < c ∧ c ≤ 16 then
      DecodeResult.ok c ((payload.drop 1).headD 0 != 0)
    else DecodeResult.channelOutOfRange
  else DecodeResult.invalidLength

/-- Resolved session configuration: the g_Broker and g_Topic globals,
each modelled as its list of characters. -/
structure Config where
  broker : List Char
  topic : List Char
deriving DecidableEq

/-- The globals are zero-initialized static arrays, so both strings
start out empty. -/
def initialConfig : Config := Config.mk [] []

/-- Default broker address installed when the settings file cannot be
opened (main.c line 152). -/
def defaultBroker : List Char := "192.168.0.1".toList

/-- Default topic installed when the settings file cannot be opened
(main.c line 151). -/
def defaultTopic : List Char := "relays".toList

/-- Repeated strtok with delimiter " ": the maximal runs of non-space
characters of the buffer, in order. -/
def tokenize (l : List Char) : List (List Char) :=
  (l.splitOn ' ').filter (fun t => t ≠ [])

/-- Which global a settings line assigns, and the value copied. -/
inductive Update where
  | setTopic (v : List Char)
  | setBroker (v : List Char)
deriving DecidableEq

/-- Net assignment performed by one iteration of the while loop of
readSettings (main.c lines 157-187) on one fgets chunk: the last
character is overwritten with a terminator unconditionally, blank
results and lines starting with a hash sign are skipped, the first
token is upper-cased and compared against TOPIC and BROKER, and the
corresponding global is assigned when a value token is present. A
chunk that is all spaces makes strtok return NULL (the C would then
pass NULL to strlen); it performs no assignment here. -/
def lineUpdate (line : List Char) : Option Update :=
  let stripped := line.dropLast
  if stripped = [] then none
  else if stripped.head? = some '#' then none
  else
    match tokenize stripped with
    | [] => none
    | label :: rest =>
      let ulabel := label.map Char.toUpper
      if ulabel = "TOPIC".toList then
        match rest with
        | v :: _ => some (Update.setTopic v)
        | [] => none
      else if ulabel = "BROKER".toList then
        match rest with
        | v :: _ => some (Update.setBroker v)
        | [] => none
      else none

/-- Apply one line's assignment to the globals. -/
def processLine (cfg : Config) (line : List Char) : Config :=
  match lineUpdate line with
  | some (Update.setTopic v) => Config.mk cfg.broker v
  | some (Update.setBroker v) => Config.mk v cfg.topic
  | none => cfg

/-- Embedding of readSettings (main.c lines 133-197). `none` models
fopen failing: the defaults are installed and the function returns
false. `some lines` models an opened file whose fgets chunks are the
given lines (each at most BUFFSIZE-1 characters, normally one line
including its newline); the while loop folds processLine over them and
the function returns true. The starting configuration is the current
contents of the globals. -/
def readSettings (src : Option (List (List Char))) (cfg : Config) : Config × Bool :=
  match src with
  | none => (Config.mk defaultBroker defaultTopic, false)
  | some lines => (lines.foldl processLine cfg, true)

/-- Externally visible startup actions of main. -/
inductive Event where
  | pinMode (pin : Nat)
  | pinWrite (pin : Nat) (level : Level)
  | connectAttempt (broker : List Char)
deriving DecidableEq

/-- gpioSetup (main.c lines 251-261): when wiringPiSetup succeeds,
each of pins 0..15 is configured as OUTPUT and driven HIGH, in order. -/
def gpioSetupTrace (setupOk : Bool) : List Event :=
  if setupOk then
    (List.range 16).flatMap (fun i => [Event.pinMode i, Event.pinWrite i Level.HIGH])
  else []

/-- Startup sequence of main (main.c lines 265-311) up to and
including the broker connect attempt: settings are resolved from the
source into the zero-initialized globals, GPIO is set up, and then
mosquitto_connect is attempted with the resolved broker address.
The return value of readSettings is ignored by main. -/
def mainStartupTrace (src : Option (List (List Char))) (setupOk : Bool) : List Event :=
  gpioSetupTrace setupOk ++
    [Event.connectAttempt (readSettings src initialConfig).1.broker]

/-- Broker value assigned by the last line of the file that performs a
BROKER assignment, if any: the net effect of the while loop on
g_Broker. -/
def lastBrokerUpdate : List (List Char) → Option (List Char)
  | [] => none
  | l :: rest =>
    match lastBrokerUpdate rest with
    | some v => some v
    | none =>
      match lineUpdate l with
      | some (Update.setBroker v) => some v
      | _ => none

/-- Topic value assigned by the last line of the file that performs a
TOPIC assignment, if any: the net effect of the while loop on
g_Topic. -/
def lastTopicUpdate : List (List Char) → Option (List Char)
  | [] => none
  | l :: rest =>
    match lastTopicUpdate rest with
    | some v => some v
    | none =>
      match lineUpdate l with
      | some (Update.setTopic v) => some v
      | _ => none

/-- Normal form of the while loop of readSettings: each global ends up
holding the value of the last line assigning it, or its prior contents
when no line assigns it. -/
theorem foldl_processLine_eq (lines : List (List Char)) (cfg : Config) :
    lines.foldl processLine cfg =
      Config.mk ((lastBrokerUpdate lines).getD cfg.broker)
        ((lastTopicUpdate lines).getD cfg.topic) := by
  induction lines generalizing cfg with
  | nil => rfl
  | cons l rest ih =>
    rw [List.foldl_cons, ih]
    simp only [lastBrokerUpdate, lastTopicUpdate]
    rcases hU : lineUpdate l with _ | u
    · cases lastBrokerUpdate rest <;> cases lastTopicUpdate rest <;>
        simp [processLine, hU]
    · cases u <;>
        cases lastBrokerUpdate rest <;> cases lastTopicUpdate rest <;>
          simp [processLine, hU]

/-- Lines that are blank or start with a hash sign after the strip
perform no assignment. -/
theorem lineUpdate_comment (l : List Char)
    (h : l.dropLast = [] ∨ l.dropLast.head? = some '#') :
    lineUpdate l = none := by
  rcases h with h | h <;> simp [lineUpdate, h]

/-- C1: for every 2-byte payload whose first byte c is in 1..16 and
whose second byte is s, decode succeeds with channel c and
desiredState (s nonzero), on_message issues exactly one pin write,
addressed at pin index c - 1, and the channel-to-pin mapping is a
total, stateless, bijective function from 1..16 onto 0..15. -/
theorem valid_command_single_write (c s : Nat) (hc1 : 1 ≤ c) (hc16 : c ≤ 16)
    (_hs : s < 256) :
    decode [c, s] = DecodeResult.ok c (s != 0) ∧
    (on_message [c, s]).2 =
      [(pinIndex c, if s = 0 then Level.HIGH else Level.LOW)] ∧
    (on_message [c, s]).2.length = 1 ∧
    (∀ a, 1 ≤ a → a ≤ 16 → pinIndex a ≤ 15) ∧
    (∀ a b, 1 ≤ a → a ≤ 16 → 1 ≤ b → b ≤ 16 → pinIndex a = pinIndex b → a = b) ∧
    (∀ p, p ≤ 15 → ∃ a, 1 ≤ a ∧ a ≤ 16 ∧ pinIndex a = p) := by
  have hrange : 0 < c ∧ c ≤ 16 := ⟨hc1, hc16⟩
  refine ⟨?_, ?_, ?_, ?_, ?_, ?_⟩
  · simp [decode, hrange]
  · simp [on_message, hrange]
  · simp [on_message, hrange]
  · intro a h1 h2
    simp only [pinIndex]
    omega
  · intro a b h1 h2 h3 h4 h
    simp only [pinIndex] at h
    omega
  · intro p hp
    exact ⟨p + 1, by omega, by omega, by simp [pinIndex]⟩

/-- Witness for valid_command_single_write at payload [3, 5]. -/
theorem valid_command_single_write_witness :
    decode [3, 5] = DecodeResult.ok 3 (5 != 0) ∧
    (on_message [3, 5]).2 =
      [(pinIndex 3, if 5 = 0 then Level.HIGH else Level.LOW)] ∧
    (on_message [3, 5]).2.length = 1 ∧
    (∀ a, 1 ≤ a → a ≤ 16 → pinIndex a ≤ 15) ∧
    (∀ a b, 1 ≤ a → a ≤ 16 → 1 ≤ b → b ≤ 16 → pinIndex a = pinIndex b → a = b) ∧
    (∀ p, p ≤ 15 → ∃ a, 1 ≤ a ∧ a ≤ 16 ∧ pinIndex a = p) :=
  valid_command_single_write 3 5 (by decide) (by decide) (by decide)

/-- C2: for every valid decoded command the logic level written is
inverted with respect to the desired state: a nonzero state byte (on)
drives the pin LOW and a zero state byte (off) drives it HIGH, for all
16 channels. -/
theorem inverted_level_policy (c s : Nat) (hc1 : 1 ≤ c) (hc16 : c ≤ 16) :
    (s ≠ 0 → (on_message [c, s]).2 = [(pinIndex c, Level.LOW)]) ∧
    (s = 0 → (on_message [c, s]).2 = [(pinIndex c, Level.HIGH)]) := by
  have hrange : 0 < c ∧ c ≤ 16 := ⟨hc1, hc16⟩
  constructor
  · intro hs
    simp [on_message, hrange, hs]
  · intro hs
    simp [on_message, hrange, hs]

/-- Witness for inverted_level_policy at channel 2 with states 3 and 0. -/
theorem inverted_level_policy_witness :
    (on_message [2, 3]).2 = [(pinIndex 2, Level.LOW)] ∧
    (on_message [2, 0]).2 = [(pinIndex 2, Level.HIGH)] :=
  ⟨(inverted_level_policy 2 3 (by decide) (by decide)).1 (by decide),
   (inverted_level_policy 2 0 (by decide) (by decide)).2 rfl⟩

/-- C3: for every payload whose length is not exactly 2, decode fails
with InvalidLength and on_message issues no pin write and leaves the
payload buffer unchanged. -/
theorem invalid_length_no_write (payload : List Nat)
    (h : payload.length ≠ 2) :
    decode payload = DecodeResult.invalidLength ∧
    on_message payload = (payload, []) := by
  constructor <;> simp [decode, on_message, h]

/-- Witness for invalid_length_no_write at the 3-byte payload
[1, 1, 1]. -/
theorem invalid_length_no_write_witness :
    decode [1, 1, 1] = DecodeResult.invalidLength ∧
    on_message [1, 1, 1] = ([1, 1, 1], []) :=
  invalid_length_no_write [1, 1, 1] (by decide)

/-- C4: for every 2-byte payload whose first byte is 0 or greater
than 16, decode fails with ChannelOutOfRange and on_message issues no
pin write and leaves the payload unchanged. -/
theorem channel_out_of_range_no_write (c s : Nat)
    (hc : c = 0 ∨ 16 < c) (hbyte : c < 256) :
    decode [c, s] = DecodeResult.channelOutOfRange ∧
    on_message [c, s] = ([c, s], []) := by
  have hrange : ¬(0 < c ∧ c ≤ 16) := by omega
  constructor <;> simp [decode, on_message, hrange]

/-- Witness for channel_out_of_range_no_write at payload [0, 1]. -/
theorem channel_out_of_range_no_write_witness :
    decode [0, 1] = DecodeResult.channelOutOfRange ∧
    on_message [0, 1] = ([0, 1], []) :=
  channel_out_of_range_no_write 0 1 (Or.inl rfl) (by decide)

/-- C9: on_message mutates the caller's payload buffer in place: for a
2-byte payload with first byte in 1..16 the buffer afterwards holds
channel - 1 in byte 0, while a payload failing the length check or the
range check is left unchanged. -/
theorem payload_buffer_mutation (c s : Nat) (p : List Nat)
    (hc : 1 ≤ c ∧ c ≤ 16)
    (hp : p.length ≠ 2 ∨ p.headD 0 = 0 ∨ 16 < p.headD 0) :
    (on_message [c, s]).1 = [c - 1, s] ∧ (on_message p).1 = p := by
  have hrange : 0 < c ∧ c ≤ 16 := ⟨hc.1, hc.2⟩
  constructor
  · simp [on_message, hrange, pinIndex]
  · rcases hp with hp | hp
    · simp [on_message, hp]
    · have hr : ¬(0 < p.head?.getD 0 ∧ p.head?.getD 0 ≤ 16) := by
        rw [← List.headD_eq_head?]
        omega
      simp [on_message, hr]

/-- Witness for payload_buffer_mutation at valid payload [3, 5] and
rejected payload [1, 1, 1]. -/
theorem payload_buffer_mutation_witness :
    (on_message [3, 5]).1 = [3 - 1, 5] ∧ (on_message [1, 1, 1]).1 = [1, 1, 1] :=
  payload_buffer_mutation 3 5 [1, 1, 1] (by decide) (by decide)

/-- C5 as stated is false: readSettings installs the defaults only
when the file fails to open; a source that opens and contains only a
comment line leaves the zero-initialized globals empty, so the
resolved configuration is not the default one. -/
theorem comment_only_source_not_defaults :
    (readSettings (some ["# comment\n".toList]) initialConfig).1 ≠
      Config.mk defaultBroker defaultTopic := by
  decide

/-- C5 amended: when the source opens but every chunk is blank or a
comment line after the strip, no field is assigned and the globals
keep their prior contents — at startup the zero-initialized empty
strings — so the resolved configuration equals initialConfig, not the
built-in defaults. -/
theorem comment_only_source_keeps_loaded_values (lines : List (List Char))
    (h : ∀ l ∈ lines, l.dropLast = [] ∨ l.dropLast.head? = some '#') :
    (readSettings (some lines) initialConfig).1 = initialConfig := by
  simp only [readSettings]
  induction lines with
  | nil => rfl
  | cons l rest ih =>
    have hl : lineUpdate l = none := lineUpdate_comment l (h l (by simp))
    have hpl : processLine initialConfig l = initialConfig := by
      simp [processLine, hl]
    rw [List.foldl_cons, hpl]
    exact ih fun x hx => h x (by simp [hx])

/-- Witness for comment_only_source_keeps_loaded_values on a source of
one comment line. -/
theorem comment_only_source_keeps_loaded_values_witness :
    (readSettings (some ["# comment\n".toList]) initialConfig).1 = initialConfig :=
  comment_only_source_keeps_loaded_values ["# comment\n".toList] (by decide)

/-- C6: when the configuration source cannot be opened, readSettings
still produces the default configuration (broker 192.168.0.1, topic
relays), and main goes on to attempt the broker connect with that
default broker. -/
theorem missing_source_defaults_and_startup_continues :
    readSettings none initialConfig = (Config.mk defaultBroker defaultTopic, false) ∧
    Event.connectAttempt defaultBroker ∈ mainStartupTrace none true := by
  exact ⟨rfl, by decide⟩

/-- C7: at startup, before the broker connect is attempted, all 16
pins (indices 0..15) are configured as outputs and driven HIGH
(relays off under the active-low convention), whatever the
configuration source was. -/
theorem gpio_initialized_before_connect (src : Option (List (List Char))) :
    ∃ pre,
      mainStartupTrace src true =
        pre ++ [Event.connectAttempt (readSettings src initialConfig).1.broker] ∧
      ∀ i, i < 16 → Event.pinMode i ∈ pre ∧ Event.pinWrite i Level.HIGH ∈ pre :=
  ⟨gpioSetupTrace true, rfl, by decide⟩

/-- C8: settings resolution is idempotent: resolving the same source a
second time, starting from the configuration the first resolution
produced, yields that same configuration again. -/
theorem readSettings_idempotent (src : Option (List (List Char))) (cfg : Config) :
    (readSettings src (readSettings src cfg).1).1 = (readSettings src cfg).1 := by
  cases src with
  | none => rfl
  | some lines =>
    simp only [readSettings, foldl_processLine_eq]
    cases lastBrokerUpdate lines <;> cases lastTopicUpdate lines <;> simp

/-- C10: each chunk read from the configuration source has its last
character unconditionally discarded before tokenizing: the result of
processing a line never depends on its final character, and the
concrete final line BROKER 10.0.0.5 with no trailing newline resolves
the broker to 10.0.0. with its last character lost. -/
theorem last_character_discarded :
    (∀ (cfg : Config) (l : List Char) (c c' : Char),
      processLine cfg (l ++ [c]) = processLine cfg (l ++ [c'])) ∧
    (readSettings (some ["BROKER 10.0.0.5".toList]) initialConfig).1.broker =
      "10.0.0.".toList := by
  constructor
  · intro cfg l c c'
    simp only [processLine, lineUpdate, List.dropLast_concat]
  · decide

end PiZeroMosquitto
